import Mathlib

/-!
Verification of the GUIgen decision-to-action pipeline
(`src/core/visual_llm.py`, `src/core/test_engine.py`).

The Python source is shallowly embedded: strings are `String`/`List Char`,
Python dicts holding JSON data are association lists `List (String × Json)`
with last-write-wins update semantics, and the external world (device,
model API, file system) is passed in explicitly as data.
-/

namespace GUIgen

/-! ## Python string primitives -/

/-- The character `\x7b` (left brace). -/
def lbrace : Char := Char.ofNat 123

/-- The character `\x7d` (right brace). -/
def rbrace : Char := Char.ofNat 125

/-- The backtick character. -/
def btick : Char := Char.ofNat 96

/-- Characters treated as whitespace by Python `str.strip()`. -/
def isPyWs (c : Char) : Bool :=
  c = ' ' || c = '\t' || c = '\n' || c = '\x0d' || c = '\x0b' || c = '\x0c'

/-- Python `str.strip()` on a character list: drop leading and trailing
whitespace. -/
def pyStripList (s : List Char) : List Char :=
  ((s.dropWhile isPyWs).reverse.dropWhile isPyWs).reverse

/-- Python `str.strip()`. -/
def pyStrip (s : String) : String := String.mk (pyStripList s.data)

/-- Python `str.strip(chars)` on a character list: drop leading and trailing
characters from the given set. -/
def pyStripCharsList (cs : List Char) (s : List Char) : List Char :=
  ((s.dropWhile (cs.contains ·)).reverse.dropWhile (cs.contains ·)).reverse

/-- Python `str.lower()` (restricted to ASCII case folding; every string the
code manipulates is ASCII or CJK, on which the two agree). -/
def pyLowerList (s : List Char) : List Char := s.map Char.toLower

/-- Python `needle in haystack` for strings: substring test.  The empty needle
is contained in everything, as in Python. -/
def hasSubstr (s pat : List Char) : Bool :=
  if pat.isPrefixOf s then true
  else
    match s with
    | [] => false
    | _ :: t => hasSubstr t pat

/-- Scanner of Python `str.replace`, structurally recursive on a character
budget that never runs out when started at the string's length (each step
consumes at least one character). -/
def replGo (pat rep : List Char) : Nat → List Char → List Char
  | 0, s => s
  | _ + 1, [] => []
  | fuel + 1, c :: t =>
    if pat ≠ [] ∧ pat.isPrefixOf (c :: t) then
      rep ++ replGo pat rep fuel ((c :: t).drop pat.length)
    else
      c :: replGo pat rep fuel t

/-- Python `str.replace(pat, rep)`: replace every occurrence, scanning left
to right without overlap.  (Never called with an empty pattern by the
code.) -/
def pyReplaceList (pat rep s : List Char) : List Char := replGo pat rep s.length s

/-- Python `str.split("\n")` on a character list. -/
def splitOnNl : List Char → List (List Char)
  | [] => [[]]
  | c :: rest =>
    match splitOnNl rest with
    | [] => [[c]]
    | l :: ls => if c = '\n' then [] :: l :: ls else (c :: l) :: ls

/-- Python `"\n".join(lines)` on character lists. -/
def joinNl : List (List Char) → List Char
  | [] => []
  | [l] => l
  | l :: ls => l ++ '\n' :: joinNl ls

/-- Python `str.startswith(pre)` on character lists. -/
def pyStartsWith (s pre : List Char) : Bool := pre.isPrefixOf s

/-! ## JSON values and dictionaries

A Python dict produced by `json.loads` is modelled as an association list in
insertion order with unique keys (duplicates resolved last-wins while
parsing, as in Python). -/

/-- JSON values.  Numerals are restricted to integers: no float literal occurs
in any input the claims mention, and the code never does arithmetic on parsed
numbers. -/
inductive Json where
  | null : Json
  | bool : Bool → Json
  | num : Int → Json
  /-- A Python float `m * 10 ^ (-d)`; only the literal `0.5` written by the
  completion keyword fallback uses this. -/
  | dnum : Int → Nat → Json
  | str : String → Json
  | arr : List Json → Json
  | obj : List (String × Json) → Json

mutual

/-- Structural equality of JSON values (Python `==` on parsed data). -/
def Json.beq : Json → Json → Bool
  | .null, .null => true
  | .bool a, .bool b => a == b
  | .num a, .num b => a == b
  | .dnum a da, .dnum b db => a == b && da == db
  | .str a, .str b => a == b
  | .arr xs, .arr ys => Json.beqList xs ys
  | .obj xs, .obj ys => Json.beqMembers xs ys
  | _, _ => false

/-- Elementwise equality of JSON arrays. -/
def Json.beqList : List Json → List Json → Bool
  | [], [] => true
  | x :: xs, y :: ys => Json.beq x y && Json.beqList xs ys
  | _, _ => false

/-- Elementwise equality of JSON object member lists. -/
def Json.beqMembers : List (String × Json) → List (String × Json) → Bool
  | [], [] => true
  | (k1, v1) :: xs, (k2, v2) :: ys =>
    k1 == k2 && Json.beq v1 v2 && Json.beqMembers xs ys
  | _, _ => false

end

/-- A parsed Python dict holding JSON data. -/
abbrev Dict := List (String × Json)

/-- `k in d` for a Python dict. -/
def dcontains (d : Dict) (k : String) : Bool := d.any (·.1 = k)

/-- `d.get(k)` (`None` for a missing key). -/
def dget (d : Dict) (k : String) : Option Json := (d.find? (·.1 = k)).map (·.2)

/-- `d[k] = v`: overwrite in place if present, else append. -/
def dset (d : Dict) (k : String) (v : Json) : Dict :=
  if dcontains d k then d.map (fun kv => if kv.1 = k then (k, v) else kv)
  else d ++ [(k, v)]

/-- `d.setdefault(k, v)`. -/
def dsetdefault (d : Dict) (k : String) (v : Json) : Dict :=
  if dcontains d k then d else d ++ [(k, v)]

/-- Python truthiness of `d.get(k)`: `None`, `""`, `0`, `False`, `[]` and
empty objects are falsy. -/
def truthy : Option Json → Bool
  | none => false
  | some Json.null => false
  | some (Json.bool b) => b
  | some (Json.num n) => !(n == 0)
  | some (Json.dnum m _) => !(m == 0)
  | some (Json.str s) => !(s == "")
  | some (Json.arr xs) => !xs.isEmpty
  | some (Json.obj kvs) => !kvs.isEmpty

/-- `isinstance(v, str)` for an optional JSON value. -/
def isJsonStr : Option Json → Bool
  | some (Json.str _) => true
  | _ => false

/-- Two dicts are equal as Python dicts (key-order-insensitive): each binds
exactly the keys of the other to the same values. -/
def dequiv (d1 d2 : Dict) : Bool :=
  d1.all (fun kv => match dget d2 kv.1 with
    | some v => Json.beq v kv.2
    | none => false) &&
  d2.all (fun kv => match dget d1 kv.1 with
    | some v => Json.beq v kv.2
    | none => false)

/-! ## A model of Python `json.loads`

Strict-mode recursive-descent JSON as accepted by the Python standard
library: double-quoted strings only, no trailing commas, no comments,
whitespace restricted to space/tab/newline/carriage-return.  Two modelling
restrictions, irrelevant to every string the code or the claims handle:
numerals must be integers, and `\u` escapes are not decoded.  The fuel
argument bounds nesting, mirroring the interpreter's recursion limit; the
top-level entry point supplies more fuel than any input can consume. -/

/-- JSON whitespace (`' '`, `'\t'`, `'\n'`, `'\r'`). -/
def isJsonWs (c : Char) : Bool := c = ' ' || c = '\t' || c = '\n' || c = '\x0d'

/-- Skip JSON whitespace. -/
def skipWs (s : List Char) : List Char := s.dropWhile isJsonWs

/-- Decode a single-character string escape (`\u` is out of model). -/
def escChar (c : Char) : Option Char :=
  if c = '"' then some '"'
  else if c = '\\' then some '\\'
  else if c = '/' then some '/'
  else if c = 'n' then some '\n'
  else if c = 't' then some '\t'
  else if c = 'r' then some '\x0d'
  else if c = 'b' then some '\x08'
  else if c = 'f' then some '\x0c'
  else none

/-- Parse the body of a JSON string after the opening quote; strict mode
rejects raw control characters. Returns the decoded characters and the rest
of the input after the closing quote. -/
def parseStrBody : List Char → Option (List Char × List Char)
  | [] => none
  | c :: rest =>
    if c = '"' then some ([], rest)
    else if c = '\\' then
      match rest with
      | [] => none
      | e :: rest2 =>
        match escChar e with
        | none => none
        | some ec =>
          match parseStrBody rest2 with
          | none => none
          | some (s, r) => some (ec :: s, r)
    else if c.toNat < 32 then none
    else
      match parseStrBody rest with
      | none => none
      | some (s, r) => some (c :: s, r)

/-- Parse a run of decimal digits. -/
def parseDigits : List Char → List Char × List Char
  | [] => ([], [])
  | c :: rest =>
    if c.isDigit then
      let (ds, r) := parseDigits rest
      (c :: ds, r)
    else ([], c :: rest)

/-- Numeric value of a digit list. -/
def digitsToNat (ds : List Char) : Nat :=
  ds.foldl (fun acc c => acc * 10 + (c.toNat - 48)) 0

/-- Parse a JSON number (integer-only model): optional minus, then either a
bare `0` or a nonzero digit followed by digits; a following `.`, `e` or `E`
(a float literal) is out of model and rejected. -/
def parseNum (s : List Char) : Option (Json × List Char) :=
  let (neg, s1) := match s with
    | '-' :: t => (true, t)
    | _ => (false, s)
  match parseDigits s1 with
  | ([], _) => none
  | (d :: ds, r) =>
    if d = '0' ∧ ds ≠ [] then none
    else
      match r with
      | '.' :: _ => none
      | 'e' :: _ => none
      | 'E' :: _ => none
      | _ =>
        let n : Int := Int.ofNat (digitsToNat (d :: ds))
        some (Json.num (if neg then -n else n), r)

mutual

/-- Parse one JSON value; the result carries the unconsumed input. -/
def parseVal : Nat → List Char → Option (Json × List Char)
  | 0, _ => none
  | fuel + 1, s =>
    match skipWs s with
    | [] => none
    | c :: rest =>
      if c = '"' then
        match parseStrBody rest with
        | none => none
        | some (body, r) => some (Json.str (String.mk body), r)
      else if c = lbrace then
        match skipWs rest with
        | c2 :: rest2 =>
          if c2 = rbrace then some (Json.obj [], rest2)
          else parseMembers fuel (c2 :: rest2) []
        | [] => none
      else if c = '[' then
        match skipWs rest with
        | c2 :: rest2 =>
          if c2 = ']' then some (Json.arr [], rest2)
          else parseElems fuel (c2 :: rest2) []
        | [] => none
      else if c = 't' then
        if pyStartsWith rest ['r', 'u', 'e'] then some (Json.bool true, rest.drop 3)
        else none
      else if c = 'f' then
        if pyStartsWith rest ['a', 'l', 's', 'e'] then some (Json.bool false, rest.drop 4)
        else none
      else if c = 'n' then
        if pyStartsWith rest ['u', 'l', 'l'] then some (Json.null, rest.drop 3)
        else none
      else parseNum (c :: rest)

/-- Parse the members of a JSON object (after `\x7b`, first member pending);
duplicate keys resolve last-wins as in Python. -/
def parseMembers : Nat → List Char → Dict → Option (Json × List Char)
  | 0, _, _ => none
  | fuel + 1, s, acc =>
    match skipWs s with
    | '"' :: rest =>
      match parseStrBody rest with
      | none => none
      | some (key, r1) =>
        match skipWs r1 with
        | ':' :: r2 =>
          match parseVal fuel r2 with
          | none => none
          | some (v, r3) =>
            let acc2 := dset acc (String.mk key) v
            match skipWs r3 with
            | ',' :: r4 => parseMembers fuel r4 acc2
            | c :: r4 =>
              if c = rbrace then some (Json.obj acc2, r4) else none
            | [] => none
        | _ => none
    | _ => none

/-- Parse the elements of a JSON array (after `[`, first element pending). -/
def parseElems : Nat → List Char → List Json → Option (Json × List Char)
  | 0, _, _ => none
  | fuel + 1, s, acc =>
    match parseVal fuel s with
    | none => none
    | some (v, r1) =>
      match skipWs r1 with
      | ',' :: r2 => parseElems fuel r2 (acc ++ [v])
      | ']' :: r2 => some (Json.arr (acc ++ [v]), r2)
      | _ => none

end

/-- Python `json.loads`: parse one value and require only whitespace after
it. -/
def jsonLoads (s : String) : Option Json :=
  match parseVal (2 * s.length + 2) s.data with
  | none => none
  | some (v, rest) => if skipWs rest = [] then some v else none

/-! ## `VisualLLMAnalyzer._parse_action_response` (src/core/visual_llm.py) -/

/-- The apostrophe character (single quote). -/
def squote : Char := Char.ofNat 39

/-- `act == s` where `act` is `result.get("action_type")` (a non-string value
never equals a Python string). -/
def isStrEq (o : Option Json) (s : String) : Bool :=
  match o with
  | some (Json.str t) => t == s
  | _ => false

/-- Lines 203–207: strip whitespace; if the reply starts with a code fence,
strip backticks from both ends; delete every ```json and ``` marker; strip
again. -/
def preprocessList (response : List Char) : List Char :=
  let raw := pyStripList response
  let raw :=
    if pyStartsWith raw "```".data then pyStripCharsList [btick] raw else raw
  let raw := pyReplaceList "```json".data [] raw
  let raw := pyReplaceList "```".data [] raw
  pyStripList raw

/-- Bracket-depth scan of `_extract_json` (lines 240–253), started at the
first `\x7b`: depth up on `\x7b`, down on `\x7d`, stop when it returns to
zero. -/
def extractScan : List Char → Int → List Char → Option (List Char)
  | [], _, _ => none
  | c :: rest, depth, acc =>
    if c = lbrace then extractScan rest (depth + 1) (acc ++ [c])
    else if c = rbrace then
      if depth - 1 = 0 then some (acc ++ [c])
      else extractScan rest (depth - 1) (acc ++ [c])
    else extractScan rest depth (acc ++ [c])

/-- `_extract_json`: the minimal balanced JSON-object substring starting at
the first `\x7b`, or `None` when there is no `\x7b` or no balance point. -/
def extractJsonList (text : List Char) : Option (List Char) :=
  let s := text.dropWhile (· ≠ lbrace)
  if s = [] then none else extractScan s 0 []

/-- Keyword fallback (lines 297–317): a `wait`/`success=False` base record,
with `action_type` overridden by the first matching keyword of the raw
reply. -/
def keywordFallback (raw : List Char) : Dict :=
  let lower := pyLowerList raw
  let base : Dict :=
    [("action_type", Json.str "wait"),
     ("description", Json.str "LLM响应解析失败，等待处理"),
     ("wait_time", Json.num 2),
     ("success", Json.bool false),
     ("reasoning", Json.str "响应格式不正确")]
  if hasSubstr lower "click".data then
    dset (dset base "action_type" (Json.str "click")) "reasoning"
      (Json.str "根据关键词推断为点击，位置由检测器决定")
  else if hasSubstr lower "input".data || hasSubstr lower "type".data then
    dset base "action_type" (Json.str "input")
  else if hasSubstr lower "swipe".data || hasSubstr lower "scroll".data then
    dset base "action_type" (Json.str "swipe")
  else if hasSubstr lower "back".data then
    dset base "action_type" (Json.str "back")
  else if hasSubstr lower "complete".data || hasSubstr lower "finish".data then
    dset base "action_type" (Json.str "complete")
  else base

/-- Lines 215–219 / 273–277: accept `action` or `type` as aliases for a
missing `action_type`. -/
def aliasActionType (result : Dict) : Dict :=
  if !dcontains result "action_type" then
    match dget result "action" with
    | some (Json.str s) => dset result "action_type" (Json.str s)
    | _ =>
      match dget result "type" with
      | some (Json.str s) => dset result "action_type" (Json.str s)
      | _ => result
  else result

/-- Lines 221–222 / 279–280: accept `target` as an alias for a missing or
falsy `description`. -/
def aliasTarget (result : Dict) : Dict :=
  if !truthy (dget result "description") then
    match dget result "target" with
    | some (Json.str s) => dset result "description" (Json.str s)
    | _ => result
  else result

/-- Lines 223–232 / 281–291: a `click` keeps only its description; an
`input` without text is downgraded to `wait` with `success=False` and the
2-second default wait. -/
def validateAction (result : Dict) : Dict :=
  let act := dget result "action_type"
  if isStrEq act "click" then
    dsetdefault result "description" ((dget result "description").getD (Json.str ""))
  else if isStrEq act "input" then
    if !truthy (dget result "text") then
      let r1 := dset result "action_type" (Json.str "wait")
      let r2 := dset r1 "reasoning" (Json.str "LLM未提供输入文本，暂时等待")
      let r3 := dset r2 "wait_time" ((dget r2 "wait_time").getD (Json.num 2))
      dset r3 "success" (Json.bool false)
    else result
  else result

/-- Lines 233–234 / 293–294: default `description` and `success`. -/
def fillDefaults (result : Dict) : Dict :=
  dsetdefault (dsetdefault result "description" (Json.str "")) "success" (Json.bool true)

/-- Field normalization applied to a structurally parsed dict — identical on
the direct-parse path (lines 214–235) and the extracted-candidate path
(lines 272–295). -/
def normalizeParsed (parsed : Dict) : Dict :=
  fillDefaults (validateAction (aliasTarget (aliasActionType parsed)))

/-- Direct parse (lines 210–213 / 326–330): only attempted when the
preprocessed text begins with `\x7b`, and only a JSON object counts. -/
def tryDirect (raw : List Char) : Option Dict :=
  if pyStartsWith raw [lbrace] then
    match jsonLoads (String.mk raw) with
    | some (Json.obj kvs) => some kvs
    | _ => none
  else none

/-- Light repair of an extracted candidate (lines 257–265 / 349–354):
single-to-double quotes when no double quote occurs, drop lines whose strip
begins with `//`, remove a trailing comma written `,\n\x7d` or `, \x7d`. -/
def repairCandidate (cand : List Char) : List Char :=
  let normalized :=
    if !cand.contains '"' && cand.contains squote then
      pyReplaceList [squote] ['"'] cand
    else cand
  let normalized :=
    joinNl ((splitOnNl normalized).filter
      (fun line => !pyStartsWith (pyStripList line) "//".data))
  let normalized := pyReplaceList (',' :: '\n' :: [rbrace]) ('\n' :: [rbrace]) normalized
  pyReplaceList (',' :: ' ' :: [rbrace]) (' ' :: [rbrace]) normalized

/-- Extraction-and-repair parse (lines 255–270 / 347–359). -/
def tryExtract (raw : List Char) : Option Dict :=
  match extractJsonList raw with
  | some cand =>
    match jsonLoads (String.mk (repairCandidate cand)) with
    | some (Json.obj kvs) => some kvs
    | _ => none
  | none => none

/-- The fallback chain of `_parse_action_response` after preprocessing:
direct parse, else extraction plus repair, else the keyword fallback. -/
def interpretRaw (raw : List Char) : Dict :=
  match tryDirect raw with
  | some kvs => normalizeParsed kvs
  | none =>
    match tryExtract raw with
    | some kvs => normalizeParsed kvs
    | none => keywordFallback raw

/-- `_parse_action_response` (lines 200–317). -/
def parse_action_response (response : String) : Dict :=
  interpretRaw (preprocessList response.data)

/-! ## `_parse_completion_response` (lines 319–375) -/

/-- `_parse_completion_response`: same preprocessing, extraction and repair
chain, but parsed dicts are returned unnormalized and the fallback judges
completion by a keyword list. -/
def parse_completion_response (response : String) : Dict :=
  let raw := preprocessList response.data
  match tryDirect raw with
  | some kvs => kvs
  | none =>
    match tryExtract raw with
    | some kvs => kvs
    | none =>
      let lower := pyLowerList raw
      let completed :=
        ["completed", "finished", "success", "达成", "完成", "成功"].any
          (fun w => hasSubstr lower w.data)
      [("completed", Json.bool completed),
       ("success", Json.bool completed),
       ("confidence", Json.dnum 5 1),
       ("reasoning", Json.str "基于关键词判断"),
       ("achieved_criteria", Json.arr []),
       ("missing_criteria", Json.arr []),
       ("next_suggestion", Json.str "请检查响应格式")]

/-! ## `analyze_screenshot_for_action` (lines 29–131)

The surrounding I/O (prompt construction, history bookkeeping, timestamps)
is external; the model round-trips are passed in as data.  A model-call
exception anywhere in the `try` block yields the `error` record of lines
126–131; otherwise the reply is interpreted and, for a `click`, refined for
at most two rounds, each refinement reply being either a string or `none`
for a raised `chat_completion`. -/

/-- The record returned when the analysis `try` block raises (lines
126–131). -/
def errorDict (e : String) : Dict :=
  [("action_type", Json.str "error"), ("error", Json.str e),
   ("success", Json.bool false)]

/-- Line 100: a refined reply is adopted when its `action_type` equals
`"click"` and its `description` is a string. -/
def isRefineAdopted (refined : Dict) : Bool :=
  isStrEq (dget refined "action_type") "click" && isJsonStr (dget refined "description")

/-- The refinement `while` loop (lines 74–114), by remaining attempts: a
missing reply (`none`) models a raised `chat_completion` and is skipped; an
adopted reply ends the loop; a rejected reply is appended to the action
history. -/
def refineGo : Nat → Dict → List Dict → List (Option String) → Dict × List Dict
  | 0, result, hist, _ => (result, hist)
  | n + 1, result, hist, replies =>
    match replies with
    | [] => refineGo n result hist []
    | none :: rest => refineGo n result hist rest
    | some content :: rest =>
      let refined := parse_action_response content
      if isRefineAdopted refined then (refined, hist)
      else refineGo n result (hist ++ [refined]) rest

/-- The refinement phase: entered only when the first-round action is a
`click`, bounded to 2 attempts.  Returns the final action and the refine
attempts logged into the action history. -/
def refinePhase (action0 : Dict) (replies : List (Option String)) : Dict × List Dict :=
  if isStrEq (dget action0 "action_type") "click" then refineGo 2 action0 [] replies
  else (action0, [])

/-- `analyze_screenshot_for_action`: the returned action record as a
function of the model round-trips. -/
def analyze_screenshot_for_action
    (outcome : Except String (String × List (Option String))) : Dict :=
  match outcome with
  | .error e => errorDict e
  | .ok (response, refineReplies) =>
    (refinePhase (parse_action_response response) refineReplies).1

/-- `check_test_completion` (lines 133–168): a raised model call yields the
失败 record, otherwise the reply is parsed. -/
def check_test_completion (outcome : Except String String) : Dict :=
  match outcome with
  | .error e =>
    [("completed", Json.bool false), ("success", Json.bool false),
     ("error", Json.str e)]
  | .ok response => parse_completion_response response

/-! ## `TestEngine` (src/core/test_engine.py)

Elements are the dicts produced by `WidgetDetector._parse_ui_dump`
(src/core/detector.py), which always carries a string in `text_content`. -/

/-- A detected UI element. -/
structure ScreenElt where
  column_min : Int
  row_min : Int
  column_max : Int
  row_max : Int
  text_content : String
deriving DecidableEq

/-- `_area` (lines 502–503): clamped bounding-box area. -/
def elArea (el : ScreenElt) : Int :=
  max 0 (el.column_max - el.column_min) * max 0 (el.row_max - el.row_min)

/-- The search-intent keyword set of `_find_best_matching_element`
(line 466). -/
def search_keywords : List String :=
  ["搜索", "search", "放大镜", "magnify", "查找", "find"]

/-- Line 463: `description.lower().strip()` when the description is a
string, else `""`. -/
def descOf (description : Json) : List Char :=
  match description with
  | Json.str s => pyStripList (pyLowerList s.data)
  | _ => []

/-- Line 471: `(el.get("text_content") or "").lower()`. -/
def txtOf (el : ScreenElt) : List Char := pyLowerList el.text_content.data

/-- Lines 471–473: non-empty element text containing the description. -/
def matchesDesc (desc : List Char) (el : ScreenElt) : Bool :=
  let txt := txtOf el
  !txt.isEmpty && hasSubstr txt desc

/-- Lines 478–480: non-empty element text containing a search keyword. -/
def matchesKeyword (el : ScreenElt) : Bool :=
  let txt := txtOf el
  !txt.isEmpty && search_keywords.any (fun k => hasSubstr txt k.data)

/-- Line 476/483: the description mentions a search keyword. -/
def descHasKeyword (desc : List Char) : Bool :=
  search_keywords.any (fun k => hasSubstr desc k.data)

/-- Stable insertion into an area-ascending candidate list (Python
`list.sort(key=...)` is stable). -/
def insertByArea (x : ScreenElt × Int) : List (ScreenElt × Int) → List (ScreenElt × Int)
  | [] => [x]
  | y :: ys => if x.2 ≤ y.2 then x :: y :: ys else y :: insertByArea x ys

/-- `candidates.sort(key=lambda x: x[1])` (line 494). -/
def sortByArea (l : List (ScreenElt × Int)) : List (ScreenElt × Int) :=
  l.foldr insertByArea []

/-- `max(elements, key=_area)` (line 504): first element of maximal area. -/
def maxByArea : List ScreenElt → Option ScreenElt
  | [] => none
  | h :: t => some (t.foldl (fun best el => if elArea el > elArea best then el else best) h)

/-- `_find_best_matching_element` (lines 458–506): priority chain of exact
substring match, keyword-class match, small-low positional heuristic for
search intent, then largest-area fallback. -/
def find_best_matching_element (elements : List ScreenElt) (description : Json) :
    Option ScreenElt :=
  if elements.isEmpty then none
  else
    let desc := descOf description
    let p1 := if !desc.isEmpty then elements.find? (matchesDesc desc) else none
    match p1 with
    | some el => some el
    | none =>
      let p2 := if descHasKeyword desc then elements.find? matchesKeyword else none
      match p2 with
      | some el => some el
      | none =>
        let p3 :=
          if descHasKeyword desc then
            let candidates := elements.filterMap (fun el =>
              let area := max 0 (el.column_max - el.column_min) *
                max 0 (el.row_max - el.row_min)
              if area < 50000 ∧ el.row_min > 1800 then some (el, area) else none)
            match sortByArea candidates with
            | [] => none
            | c :: cs =>
              if (c :: cs).length ≥ 3 then
                some (((c :: cs).getD ((c :: cs).length / 2) c).1)
              else some c.1
          else none
        match p3 with
        | some el => some el
        | none => if !elements.isEmpty then maxByArea elements else none

/-- Lines 429–430: the click target's center, by Python floor division. -/
def clickCenter (el : ScreenElt) : Int × Int :=
  (Int.fdiv (el.column_min + el.column_max) 2, Int.fdiv (el.row_min + el.row_max) 2)

/-- `_is_repeat_click` (lines 508–521), with `repeat_click_threshold = 2`
and a 5-pixel per-axis tolerance on `click_history[-2:]`. -/
def is_repeat_click (click_history : List (Int × Int)) (x y : Int) : Bool :=
  if click_history.length < 2 then false
  else
    let recent := click_history.drop (click_history.length - 2)
    recent.all (fun p =>
      !(decide ((x - p.1).natAbs > 5 ∨ (y - p.2).natAbs > 5)))

/-- `_record_click` (lines 597–602), with `max_click_history = 5`. -/
def record_click (click_history : List (Int × Int)) (x y : Int) : List (Int × Int) :=
  let h := click_history ++ [(x, y)]
  if h.length > 5 then h.drop 1 else h

/-- `_is_interface_unchanged` (lines 604–617).  The file system is passed as
a partial map from path to contents (`none` models a raised read), the hash
function as data. -/
def is_interface_unchanged (md5 : List Nat → String) (fs : String → Option (List Nat))
    (last_screenshot_hash : Option String) (screenshot_path : String) : Bool :=
  match fs screenshot_path with
  | none => false
  | some bytes =>
    match last_screenshot_hash with
    | none => false
    | some h => md5 bytes == h

/-- `_update_screenshot_hash` (lines 619–626): a raised read leaves the
fingerprint slot untouched. -/
def update_screenshot_hash (md5 : List Nat → String) (fs : String → Option (List Nat))
    (last_screenshot_hash : Option String) (screenshot_path : String) : Option String :=
  match fs screenshot_path with
  | none => last_screenshot_hash
  | some bytes => some (md5 bytes)

/-! ### The step loop (`_execute_test_steps`, lines 208–313)

Device and model behaviour at each step enters as a `StepEvent`; wall-clock
durations are not modelled, but the step-timeout comparison outcome is an
event field. -/

/-- External observations of one loop iteration. -/
structure StepEvent where
  /-- `_take_screenshot` result (`none` = failure). -/
  screenshot : Option String
  /-- The analysis round-trips (see `analyze_screenshot_for_action`). -/
  analysis : Except String (String × List (Option String))
  /-- Device success of the 1st/2nd/3rd execution attempt (missing =
  failure). -/
  deviceOk : List Bool
  /-- Whether `time.time() - step_start_time > step_timeout` at line 284. -/
  timedOut : Bool

/-- A recorded step (the wall-clock `duration` field is not modelled). -/
structure StepRecord where
  step : Nat
  success : Bool
  error : Option String
  action : Option Dict
  screenshot : Option String

/-- `_execute_single_action` (lines 367–395): `wait` and `complete` succeed
unconditionally, device-backed actions report the device outcome, an `input`
without text fails at line 634, anything else is an unknown action. -/
def execute_single_action (action : Dict) (deviceOk : Bool) : Bool :=
  match dget action "action_type" with
  | some (Json.str t) =>
    if t = "click" then deviceOk
    else if t = "input" then
      if !truthy (dget action "text") then false else deviceOk
    else if t = "swipe" then deviceOk
    else if t = "scroll" then deviceOk
    else if t = "back" then deviceOk
    else if t = "home" then deviceOk
    else if t = "wait" then true
    else if t = "complete" then true
    else false
  | _ => false

/-- `_execute_action_with_retry` (lines 346–365): up to `max_retry_count = 3`
attempts, first success wins. -/
def execute_action_with_retry (action : Dict) (deviceOk : List Bool) : Bool :=
  (List.range 3).any (fun i => execute_single_action action (deviceOk.getD i false))

/-- One iteration of the step loop (lines 216–304): the records it appends
and whether it breaks the loop. -/
def stepBody (ev : StepEvent) (sc : Nat) : List StepRecord × Bool :=
  match ev.screenshot with
  | none => ([⟨sc, false, some "截图失败", none, none⟩], true)
  | some shot =>
    let action_result := analyze_screenshot_for_action ev.analysis
    if action_result.isEmpty then
      ([⟨sc, false, some "LLM分析失败", none, some shot⟩], true)
    else
      let action_result := dset action_result "screenshot_path" (Json.str shot)
      let ok := execute_action_with_retry action_result ev.deviceOk
      let rec1 : StepRecord :=
        ⟨sc, ok, if ok then none else some "操作执行失败", some action_result, some shot⟩
      if isStrEq (dget action_result "action_type") "complete" then ([rec1], true)
      else if ev.timedOut then
        ([rec1, ⟨sc + 1, false, some "步骤执行超时", none, none⟩], true)
      else ([rec1], false)

/-- The `while self.step_count < max_steps` loop, by remaining budget. -/
def stepLoopGo (events : Nat → StepEvent) :
    Nat → Nat → List StepRecord → List StepRecord
  | 0, _, acc => acc
  | remaining + 1, count, acc =>
    let sc := count + 1
    let (recs, stop) := stepBody (events sc) sc
    let acc2 := acc ++ recs
    if stop then acc2 else stepLoopGo events remaining sc acc2

/-- `_execute_test_steps`: the step records, the aggregate success
(`len(steps) > 0 and any(...)`, lines 306–307) and the aggregate error. -/
def execute_test_steps (events : Nat → StepEvent) (maxSteps : Nat) :
    Bool × List StepRecord × Option String :=
  let steps := stepLoopGo events maxSteps 0 []
  let success := !steps.isEmpty && steps.any (·.success)
  (success, steps, if success then none else some "所有步骤都失败了")

/-! ### Final check and run result (`execute_test`, lines 125–177) -/

/-- External observations of `_perform_final_check`. -/
structure FinalCheckEvent where
  screenshot : Option String
  reply : Except String String

/-- `_perform_final_check` (lines 680–712). -/
def perform_final_check (ev : FinalCheckEvent) : Dict :=
  match ev.screenshot with
  | none =>
    [("success", Json.bool false), ("error", Json.str "最终检查截图失败"),
     ("screenshot", Json.null), ("analysis", Json.null)]
  | some shot =>
    let check := check_test_completion ev.reply
    [("success", (dget check "success").getD (Json.bool false)),
     ("error", (dget check "error").getD Json.null),
     ("screenshot", Json.str shot),
     ("analysis", (dget check "analysis").getD (Json.str ""))]

/-- External observations of one whole run. -/
structure RunEvents where
  launchOk : Bool
  maxSteps : Nat
  steps : Nat → StepEvent
  finalCheck : FinalCheckEvent

/-- The run result (report metadata fields are not modelled).  `success` and
`error` are JSON values because Python `and`/`or` return an operand. -/
structure TestRunResult where
  success : Json
  error : Json
  steps : List StepRecord
  finalCheck : Option Dict

/-- Python `a and b` for a boolean left operand. -/
def pyAndB (a : Bool) (b : Json) : Json := if a then b else Json.bool false

/-- Python `a or b` on JSON values. -/
def pyOrJ (a b : Json) : Json := if truthy (some a) then a else b

/-- `execute_test` (lines 125–177): guard on a loaded test and a successful
app launch, then the step loop, the unconditional final check, and the
aggregate result. -/
def execute_test (loaded : Bool) (ev : RunEvents) : TestRunResult :=
  if !loaded then ⟨Json.bool false, Json.str "未加载测试需求", [], none⟩
  else if !ev.launchOk then ⟨Json.bool false, Json.str "应用启动失败", [], none⟩
  else
    let res := execute_test_steps ev.steps ev.maxSteps
    let final := perform_final_check ev.finalCheck
    let finalSuccess := (dget final "success").getD (Json.bool false)
    ⟨pyAndB res.1 finalSuccess,
     pyOrJ (match res.2.2 with | some e => Json.str e | none => Json.null)
       ((dget final "error").getD Json.null),
     res.2.1, some final⟩

/-! ## Helper lemmas on dictionaries -/

theorem dcontains_eq_isSome (d : Dict) (k : String) :
    dcontains d k = (dget d k).isSome := by
  induction d with
  | nil => rfl
  | cons kv t ih =>
    by_cases h : kv.1 = k
    · simp [dcontains, dget, List.find?_cons, List.any_cons, h]
    · simp only [dcontains, dget, List.any_cons] at ih ⊢
      rw [List.find?_cons_of_neg _ (by simpa using h)]
      simpa [h] using ih

theorem dget_map_update (d : Dict) (k k2 : String) (v : Json) (h : k2 ≠ k) :
    dget (d.map (fun kv => if kv.1 = k then (k, v) else kv)) k2 = dget d k2 := by
  induction d with
  | nil => rfl
  | cons kv t ih =>
    by_cases hk : kv.1 = k
    · simp only [dget, List.map_cons, if_pos hk]
      rw [List.find?_cons_of_neg _ (by simpa using fun hh : k = k2 => h hh.symm),
        List.find?_cons_of_neg _ (by simp [hk]; exact fun hh => h hh.symm)]
      exact ih
    · simp only [dget, List.map_cons, if_neg hk]
      by_cases hk2 : kv.1 = k2
      · rw [List.find?_cons_of_pos _ (by simpa using hk2),
          List.find?_cons_of_pos _ (by simpa using hk2)]
      · rw [List.find?_cons_of_neg _ (by simpa using hk2),
          List.find?_cons_of_neg _ (by simpa using hk2)]
        exact ih

theorem dget_append_single_ne (d : Dict) (k k2 : String) (v : Json) (h : k2 ≠ k) :
    dget (d ++ [(k, v)]) k2 = dget d k2 := by
  induction d with
  | nil =>
    simp only [List.nil_append, dget]
    rw [List.find?_cons_of_neg _ (by simpa using fun hh : k = k2 => h hh.symm)]
  | cons kv t ih =>
    by_cases hk2 : kv.1 = k2
    · simp only [dget, List.cons_append]
      rw [List.find?_cons_of_pos _ (by simpa using hk2),
        List.find?_cons_of_pos _ (by simpa using hk2)]
    · simp only [dget, List.cons_append]
      rw [List.find?_cons_of_neg _ (by simpa using hk2),
        List.find?_cons_of_neg _ (by simpa using hk2)]
      exact ih

theorem dget_dset_ne (d : Dict) (k k2 : String) (v : Json) (h : k2 ≠ k) :
    dget (dset d k v) k2 = dget d k2 := by
  unfold dset
  by_cases hc : dcontains d k = true
  · rw [if_pos hc]; exact dget_map_update d k k2 v h
  · rw [if_neg hc]; exact dget_append_single_ne d k k2 v h

theorem dget_map_update_self (d : Dict) (k : String) (v : Json)
    (hc : dcontains d k = true) :
    dget (d.map (fun kv => if kv.1 = k then (k, v) else kv)) k = some v := by
  induction d with
  | nil => simp [dcontains] at hc
  | cons kv t ih =>
    by_cases hk : kv.1 = k
    · simp only [dget, List.map_cons, if_pos hk]
      rw [List.find?_cons_of_pos _ (by simp)]
      rfl
    · simp only [dget, List.map_cons, if_neg hk]
      rw [List.find?_cons_of_neg _ (by simpa using hk)]
      simp only [dcontains, List.any_cons] at hc
      rcases Bool.or_eq_true_iff.mp hc with h1 | h1
      · exact absurd (by simpa using h1) hk
      · exact ih h1

theorem dget_append_single_self (d : Dict) (k : String) (v : Json)
    (hc : dcontains d k = false) :
    dget (d ++ [(k, v)]) k = some v := by
  induction d with
  | nil =>
    simp only [List.nil_append, dget]
    rw [List.find?_cons_of_pos _ (by simp)]
    rfl
  | cons kv t ih =>
    simp only [dcontains, List.any_cons, Bool.or_eq_false_iff] at hc
    simp only [dget, List.cons_append]
    rw [List.find?_cons_of_neg _ (by simpa using hc.1)]
    exact ih hc.2

theorem dget_dset_self (d : Dict) (k : String) (v : Json) :
    dget (dset d k v) k = some v := by
  unfold dset
  by_cases hc : dcontains d k = true
  · rw [if_pos hc]; exact dget_map_update_self d k v hc
  · rw [if_neg hc]
    exact dget_append_single_self d k v (by simpa using hc)

theorem dget_dsetdefault_ne (d : Dict) (k k2 : String) (v : Json) (h : k2 ≠ k) :
    dget (dsetdefault d k v) k2 = dget d k2 := by
  unfold dsetdefault
  by_cases hc : dcontains d k = true
  · rw [if_pos hc]
  · rw [if_neg hc]; exact dget_append_single_ne d k k2 v h

theorem dget_dsetdefault_self (d : Dict) (k : String) (v : Json) :
    dget (dsetdefault d k v) k = some ((dget d k).getD v) := by
  unfold dsetdefault
  by_cases hc : dcontains d k = true
  · rw [if_pos hc]
    have := dcontains_eq_isSome d k
    rw [hc] at this
    cases hg : dget d k with
    | none => rw [hg] at this; simp at this
    | some x => simp [hg]
  · rw [if_neg hc]
    have hcf : dcontains d k = false := by
      cases hcb : dcontains d k
      · rfl
      · exact absurd hcb hc
    have hiso := dcontains_eq_isSome d k
    rw [hcf] at hiso
    have hnone : dget d k = none := by
      cases hg : dget d k with
      | none => rfl
      | some x => rw [hg] at hiso; simp at hiso
    rw [hnone]
    simpa using dget_append_single_self d k v hcf

theorem dsetdefault_ne_nil (d : Dict) (k : String) (v : Json) :
    dsetdefault d k v ≠ [] := by
  unfold dsetdefault
  by_cases hc : dcontains d k = true
  · rw [if_pos hc]
    intro h
    subst h
    simp [dcontains] at hc
  · rw [if_neg hc]
    simp

/-! ## Claim C4 -/

/-- C4: repeat-click detection returns true exactly when the click history
already holds at least 2 entries and the new point lies within a 5-pixel
per-axis tolerance of each of the 2 most recent recorded points; with fewer
than 2 recorded clicks it returns false. -/
theorem C4_repeat_click_iff (h : List (Int × Int)) (x y : Int) :
    is_repeat_click h x y = true ↔
      (2 ≤ h.length ∧
        ∀ p ∈ h.drop (h.length - 2),
          (x - p.1).natAbs ≤ 5 ∧ (y - p.2).natAbs ≤ 5) := by
  unfold is_repeat_click
  by_cases hl : h.length < 2
  · rw [if_pos hl]
    constructor
    · intro hfalse
      exact absurd hfalse (by simp)
    · rintro ⟨h2, -⟩
      omega
  · rw [if_neg hl]
    rw [List.all_eq_true]
    constructor
    · intro ha
      refine ⟨by omega, fun p hp => ?_⟩
      have hfa := ha p hp
      simp only [Bool.not_eq_eq_eq_not, Bool.not_true, decide_eq_false_iff_not,
        not_or, not_lt] at hfa
      exact ⟨hfa.1, hfa.2⟩
    · rintro ⟨-, hall⟩ p hp
      have hfp := hall p hp
      simp only [Bool.not_eq_eq_eq_not, Bool.not_true, decide_eq_false_iff_not,
        not_or, not_lt]
      exact ⟨hfp.1, hfp.2⟩

/-! ## Claim C10 -/

/-- C10: the interface-unchanged check returns false whenever no screenshot
hash has been recorded yet, and also returns false whenever reading the
screenshot file raises, instead of propagating the exception. -/
theorem C10_interface_unchanged_guard (md5 : List Nat → String)
    (fs : String → Option (List Nat)) (last : Option String) (path : String) :
    (last = none → is_interface_unchanged md5 fs last path = false) ∧
    (fs path = none → is_interface_unchanged md5 fs last path = false) := by
  unfold is_interface_unchanged
  constructor
  · intro hl
    subst hl
    cases hfp : fs path <;> simp
  · intro hf
    rw [hf]

/-- Witness for C10 at a concrete input. -/
theorem C10_interface_unchanged_guard_witness :
    is_interface_unchanged (fun _ => "d41d8cd9") (fun _ => none) none "a.png" = false :=
  (C10_interface_unchanged_guard (fun _ => "d41d8cd9") (fun _ => none) none "a.png").1 rfl

/-! ## Claim C2 -/

theorem find_best_isSome_of_ne_nil (l : List ScreenElt) (d : Json) (hne : l ≠ []) :
    (find_best_matching_element l d).isSome = true := by
  unfold find_best_matching_element
  rw [if_neg (by simpa [List.isEmpty_iff] using hne)]
  dsimp only
  split
  next => rfl
  next =>
    split
    next => rfl
    next =>
      split
      next => rfl
      next =>
        rw [if_pos (by simpa [List.isEmpty_iff] using hne)]
        cases l with
        | nil => exact absurd rfl hne
        | cons a t => simp [maxByArea]

/-- C2: the element matcher returns `None` if and only if the element list
is empty; the largest-area fallback guarantees a result for every non-empty
list. -/
theorem C2_ground_none_iff_empty (elements : List ScreenElt) (description : Json) :
    find_best_matching_element elements description = none ↔ elements = [] := by
  cases elements with
  | nil => simp [find_best_matching_element]
  | cons a t =>
    have hsome := find_best_isSome_of_ne_nil (a :: t) description (by simp)
    constructor
    · intro hnone
      rw [hnone] at hsome
      simp at hsome
    · intro hh
      exact absurd hh (by simp)

/-! ## Claim C5 -/

/-- C5: exact substring match has strict top priority in grounding — when
the (case-folded, stripped) description is non-empty and some element's text
contains it, the first such element is returned regardless of area; on the
concrete scenario with description `搜索` the grounded center is
`(940, 2230)`. -/
theorem C5_exact_match_priority :
    (∀ (elements : List ScreenElt) (s : String) (el : ScreenElt),
        descOf (Json.str s) ≠ [] →
        elements.find? (matchesDesc (descOf (Json.str s))) = some el →
        find_best_matching_element elements (Json.str s) = some el) ∧
    find_best_matching_element
        [⟨0, 0, 100, 50, ""⟩, ⟨900, 2200, 980, 2260, "搜索"⟩] (Json.str "搜索") =
      some ⟨900, 2200, 980, 2260, "搜索"⟩ ∧
    clickCenter ⟨900, 2200, 980, 2260, "搜索"⟩ = (940, 2230) := by
  refine ⟨?_, rfl, rfl⟩
  intro elements s el hdesc hfind
  have hne : elements ≠ [] := by
    intro h
    subst h
    simp at hfind
  unfold find_best_matching_element
  rw [if_neg (by simpa [List.isEmpty_iff] using hne)]
  dsimp only
  rw [if_pos (by simpa [List.isEmpty_iff] using hdesc)]
  rw [hfind]

/-- Witness for C5 at the concrete scenario-A input. -/
theorem C5_exact_match_priority_witness :
    find_best_matching_element
        [⟨0, 0, 100, 50, ""⟩, ⟨900, 2200, 980, 2260, "搜索"⟩] (Json.str "搜索") =
      some ⟨900, 2200, 980, 2260, "搜索"⟩ :=
  C5_exact_match_priority.1 _ "搜索" _ (by decide) (by decide)

/-! ## Claim C6 -/

/-- C6: run-level success equals the logical AND of step-loop success and
final-check success, where step-loop success is: the recorded step list is
non-empty and at least one recorded step succeeded. -/
theorem C6_run_success_is_and (ms : Nat) (st : Nat → StepEvent) (fc : FinalCheckEvent) :
    (truthy (some (execute_test true ⟨true, ms, st, fc⟩).success) =
      ((execute_test_steps st ms).1 &&
        truthy (some ((dget (perform_final_check fc) "success").getD (Json.bool false)))) ∧
    (execute_test_steps st ms).1 =
      (!(stepLoopGo st ms 0 []).isEmpty &&
        (stepLoopGo st ms 0 []).any (fun r => r.success))) := by
  constructor
  · show truthy (some (pyAndB (execute_test_steps st ms).1
      ((dget (perform_final_check fc) "success").getD (Json.bool false)))) = _
    cases hb : (execute_test_steps st ms).1 <;> simp [pyAndB, truthy]
  · rfl

/-! ## Claim C1 -/

theorem isStrEq_eq_true_iff (o : Option Json) (s : String) :
    isStrEq o s = true ↔ o = some (Json.str s) := by
  cases o with
  | none => simp [isStrEq]
  | some v => cases v <;> simp [isStrEq]

theorem dget_fillDefaults_action_type (r : Dict) :
    dget (fillDefaults r) "action_type" = dget r "action_type" := by
  unfold fillDefaults
  rw [dget_dsetdefault_ne _ _ _ _ (by decide), dget_dsetdefault_ne _ _ _ _ (by decide)]

theorem dget_fillDefaults_text (r : Dict) :
    dget (fillDefaults r) "text" = dget r "text" := by
  unfold fillDefaults
  rw [dget_dsetdefault_ne _ _ _ _ (by decide), dget_dsetdefault_ne _ _ _ _ (by decide)]

theorem keywordFallback_success (raw : List Char) :
    dget (keywordFallback raw) "success" = some (Json.bool false) := by
  unfold keywordFallback
  dsimp only
  repeat' split
  all_goals rfl

/-- On the structured paths, a record normalized to `action_type = "input"`
always carries truthy text: an input without text was downgraded to
`wait`. -/
theorem normalizeParsed_input_text (kvs : Dict) :
    isStrEq (dget (normalizeParsed kvs) "action_type") "input" = true →
    truthy (dget (normalizeParsed kvs) "text") = true := by
  unfold normalizeParsed
  intro h
  rw [dget_fillDefaults_text]
  rw [dget_fillDefaults_action_type] at h
  set r := aliasTarget (aliasActionType kvs) with hr
  unfold validateAction at h ⊢
  by_cases h1 : isStrEq (dget r "action_type") "click" = true
  · rw [if_pos h1] at h ⊢
    rw [dget_dsetdefault_ne _ _ _ _ (by decide)] at h
    rw [isStrEq_eq_true_iff] at h1
    rw [h1] at h
    exact absurd h (by decide)
  · rw [if_neg h1] at h ⊢
    by_cases h2 : isStrEq (dget r "action_type") "input" = true
    · rw [if_pos h2] at h ⊢
      by_cases h3 : truthy (dget r "text") = true
      · rw [if_neg (by rw [h3]; decide)] at h ⊢
        exact h3
      · rw [Bool.not_eq_true] at h3
        rw [if_pos (by rw [h3]; rfl)] at h
        rw [dget_dset_ne _ _ _ _ (by decide), dget_dset_ne _ _ _ _ (by decide),
          dget_dset_ne _ _ _ _ (by decide), dget_dset_self] at h
        exact absurd h (by decide)
    · rw [if_neg h2] at h
      exact absurd h h2

/-- C1 (amended): on the structured-parse paths the invariant holds as
stated — an input action with empty or missing (falsy) text is normalized to
`wait` with `success = False`, the `LLM未提供输入文本` reasoning and the
2-second default wait time, and every normalized record with
`actionType = "input"` carries truthy text; on every path of the fallback
chain `actionType = "input"` implies truthy text or `success = False`; the
keyword-scan fallback alone can emit an `input` record with no text (its
`success` is `False`). -/
theorem C1_input_invariant (response : String) :
    (∀ r : Dict,
      isStrEq (dget r "action_type") "input" = true →
      truthy (dget r "text") = false →
      dget (fillDefaults (validateAction r)) "action_type" = some (Json.str "wait") ∧
      dget (fillDefaults (validateAction r)) "success" = some (Json.bool false) ∧
      dget (fillDefaults (validateAction r)) "wait_time" =
        some ((dget r "wait_time").getD (Json.num 2)) ∧
      dget (fillDefaults (validateAction r)) "reasoning" =
        some (Json.str "LLM未提供输入文本，暂时等待")) ∧
    (∀ kvs : Dict, normalizeParsed kvs =
      fillDefaults (validateAction (aliasTarget (aliasActionType kvs)))) ∧
    (∀ kvs : Dict,
      isStrEq (dget (normalizeParsed kvs) "action_type") "input" = true →
      truthy (dget (normalizeParsed kvs) "text") = true) ∧
    (isStrEq (dget (parse_action_response response) "action_type") "input" = true →
      (truthy (dget (parse_action_response response) "text") = true ∨
        dget (parse_action_response response) "success" = some (Json.bool false))) := by
  refine ⟨?_, fun kvs => rfl, fun kvs => normalizeParsed_input_text kvs, ?_⟩
  · intro r h1 h2
    have hact : dget r "action_type" = some (Json.str "input") :=
      (isStrEq_eq_true_iff _ _).mp h1
    unfold validateAction
    dsimp only
    rw [if_neg (by rw [hact]; decide), if_pos h1, if_pos (by rw [h2]; rfl)]
    refine ⟨?_, ?_, ?_, ?_⟩
    · rw [dget_fillDefaults_action_type,
        dget_dset_ne _ _ _ _ (by decide), dget_dset_ne _ _ _ _ (by decide),
        dget_dset_ne _ _ _ _ (by decide), dget_dset_self]
    · unfold fillDefaults
      rw [dget_dsetdefault_self, dget_dsetdefault_ne _ _ _ _ (by decide),
        dget_dset_self]
      rfl
    · unfold fillDefaults
      rw [dget_dsetdefault_ne _ _ _ _ (by decide), dget_dsetdefault_ne _ _ _ _ (by decide),
        dget_dset_ne _ _ _ _ (by decide), dget_dset_self,
        dget_dset_ne _ _ _ _ (by decide), dget_dset_ne _ _ _ _ (by decide)]
    · unfold fillDefaults
      rw [dget_dsetdefault_ne _ _ _ _ (by decide), dget_dsetdefault_ne _ _ _ _ (by decide),
        dget_dset_ne _ _ _ _ (by decide), dget_dset_ne _ _ _ _ (by decide),
        dget_dset_self]
  · unfold parse_action_response interpretRaw
    cases htd : tryDirect (preprocessList response.data) with
    | some kvs =>
      intro h
      exact Or.inl (normalizeParsed_input_text kvs h)
    | none =>
      cases hte : tryExtract (preprocessList response.data) with
      | some kvs =>
        intro h
        exact Or.inl (normalizeParsed_input_text kvs h)
      | none =>
        intro _
        exact Or.inr (keywordFallback_success _)

/-- C1 counterexample: on the keyword-scan fallback path the reply
`"please input text"` is interpreted as an `input` action whose `text` field
is missing entirely — it is not normalized to `wait`, contradicting the
claim that the invariant holds on every path including the keyword scan. -/
theorem C1_counterexample :
    dget (parse_action_response "please input text") "action_type" =
      some (Json.str "input") ∧
    dget (parse_action_response "please input text") "text" = none ∧
    dget (parse_action_response "please input text") "action_type" ≠
      some (Json.str "wait") := by
  refine ⟨rfl, rfl, ?_⟩
  intro h
  have : isStrEq (dget (parse_action_response "please input text") "action_type") "wait"
      = true := by rw [h]; rfl
  exact absurd this (by decide)

/-- Witness for C1: the downgrade conjunct at a concrete text-less input
record, and the every-path invariant at a concrete well-formed input
reply. -/
theorem C1_input_invariant_witness :
    (dget (fillDefaults (validateAction [("action_type", Json.str "input")]))
        "action_type" = some (Json.str "wait") ∧
      dget (fillDefaults (validateAction [("action_type", Json.str "input")]))
        "success" = some (Json.bool false) ∧
      dget (fillDefaults (validateAction [("action_type", Json.str "input")]))
        "wait_time" =
        some ((dget [("action_type", Json.str "input")] "wait_time").getD (Json.num 2)) ∧
      dget (fillDefaults (validateAction [("action_type", Json.str "input")]))
        "reasoning" = some (Json.str "LLM未提供输入文本，暂时等待")) ∧
    (truthy (dget (parse_action_response
        "\x7b\"action_type\": \"input\", \"text\": \"abc\"\x7d") "text") = true ∨
      dget (parse_action_response
        "\x7b\"action_type\": \"input\", \"text\": \"abc\"\x7d") "success" =
        some (Json.bool false)) :=
  ⟨(C1_input_invariant "x").1 [("action_type", Json.str "input")] rfl rfl,
    (C1_input_invariant "\x7b\"action_type\": \"input\", \"text\": \"abc\"\x7d").2.2.2 rfl⟩

/-! ## Claim C3 -/

theorem dsetdefault_isEmpty (d : Dict) (k : String) (v : Json) :
    (dsetdefault d k v).isEmpty = false := by
  unfold dsetdefault
  by_cases hc : dcontains d k = true
  · rw [if_pos hc]
    cases d with
    | nil => simp [dcontains] at hc
    | cons a t => rfl
  · rw [if_neg hc]
    cases d <;> rfl

theorem normalizeParsed_isEmpty (kvs : Dict) :
    (normalizeParsed kvs).isEmpty = false := by
  unfold normalizeParsed fillDefaults
  exact dsetdefault_isEmpty _ _ _

theorem keywordFallback_isEmpty (raw : List Char) :
    (keywordFallback raw).isEmpty = false := by
  unfold keywordFallback
  dsimp only
  repeat' split
  all_goals rfl

theorem parse_action_response_isEmpty (r : String) :
    (parse_action_response r).isEmpty = false := by
  unfold parse_action_response interpretRaw
  cases htd : tryDirect (preprocessList r.data) with
  | some kvs => exact normalizeParsed_isEmpty kvs
  | none =>
    cases hte : tryExtract (preprocessList r.data) with
    | some kvs => exact normalizeParsed_isEmpty kvs
    | none => exact keywordFallback_isEmpty _

theorem refineGo_fst_isEmpty (n : Nat) (a : Dict) (hist : List Dict)
    (replies : List (Option String)) (ha : a.isEmpty = false) :
    ((refineGo n a hist replies).1).isEmpty = false := by
  induction n generalizing a hist replies with
  | zero => exact ha
  | succ n ih =>
    cases replies with
    | nil => exact ih a hist [] ha
    | cons r rest =>
      cases r with
      | none => exact ih a hist rest ha
      | some content =>
        simp only [refineGo]
        by_cases had : isRefineAdopted (parse_action_response content) = true
        · rw [if_pos had]
          exact parse_action_response_isEmpty content
        · rw [if_neg had]
          exact ih a (hist ++ [parse_action_response content]) rest ha

theorem analyze_screenshot_isEmpty
    (outcome : Except String (String × List (Option String))) :
    (analyze_screenshot_for_action outcome).isEmpty = false := by
  cases outcome with
  | error e => rfl
  | ok p =>
    obtain ⟨resp, replies⟩ := p
    show ((if isStrEq (dget (parse_action_response resp) "action_type") "click" = true then
        refineGo 2 (parse_action_response resp) [] replies
      else (parse_action_response resp, [])).1).isEmpty = false
    by_cases h : isStrEq (dget (parse_action_response resp) "action_type") "click" = true
    · rw [if_pos h]
      exact refineGo_fst_isEmpty _ _ _ _ (parse_action_response_isEmpty resp)
    · rw [if_neg h]
      exact parse_action_response_isEmpty resp

/-- C3 (amended): the loop's abort-with-`LLM分析失败` branch exists but fires
only when the analyzer returns an empty record, which never happens: the
analyzer always returns a non-empty record.  In particular a model-call
failure during analysis yields an `actionType="error"` record; that step
fails execution and the loop continues rather than aborting the run. -/
theorem C3_analysis_failure_not_fatal :
    (∀ outcome, (analyze_screenshot_for_action outcome).isEmpty = false) ∧
    (∀ (ev : StepEvent) (sc : Nat) (shot e : String),
      ev.screenshot = some shot → ev.analysis = Except.error e → ev.timedOut = false →
      stepBody ev sc =
        ([⟨sc, false, some "操作执行失败",
            some (dset (errorDict e) "screenshot_path" (Json.str shot)), some shot⟩],
          false)) := by
  constructor
  · exact analyze_screenshot_isEmpty
  · intro ev sc shot e hs ha ht
    unfold stepBody
    rw [hs]
    simp only [ha, ht]
    rfl

/-- C3 counterexample: with a model-call failure at step 1 the run does not
stop — step 1 is recorded as failed (error record, execution failure) and
step 2 still runs. -/
theorem C3_counterexample :
    (stepLoopGo
        (fun n =>
          if n = 1 then ⟨some "step1.png", Except.error "API调用失败", [], false⟩
          else ⟨some "step2.png", Except.ok ("\x7b\"action_type\": \"wait\"\x7d", []), [], false⟩)
        2 0 []).map (fun r => (r.step, r.success, r.error)) =
      [(1, false, some "操作执行失败"), (2, true, none)] := by rfl

/-- Witness for C3 at a concrete failing analysis. -/
theorem C3_analysis_failure_not_fatal_witness :
    stepBody ⟨some "s.png", Except.error "boom", [], false⟩ 1 =
      ([⟨1, false, some "操作执行失败",
          some (dset (errorDict "boom") "screenshot_path" (Json.str "s.png")), some "s.png"⟩],
        false) :=
  C3_analysis_failure_not_fatal.2 ⟨some "s.png", Except.error "boom", [], false⟩ 1
    "s.png" "boom" rfl rfl rfl

/-! ## Claim C7 -/

theorem refineGo_take (n : Nat) (a : Dict) (hist : List Dict)
    (replies : List (Option String)) :
    refineGo n a hist replies = refineGo n a hist (replies.take n) := by
  induction n generalizing a hist replies with
  | zero => rfl
  | succ n ih =>
    cases replies with
    | nil => rfl
    | cons r rest =>
      cases r with
      | none =>
        simp only [refineGo, List.take_succ_cons]
        exact ih a hist rest
      | some content =>
        simp only [refineGo, List.take_succ_cons]
        by_cases h : isRefineAdopted (parse_action_response content) = true
        · rw [if_pos h, if_pos h]
        · rw [if_neg h, if_neg h]
          exact ih a (hist ++ [parse_action_response content]) rest

/-- C7 (amended): during two-round refinement (entered only for a click,
bounded to 2 attempts) a refined reply is adopted and refinement stops
exactly when it parses to a `click` action whose `description` value is a
string — the parser defaults a missing description to the empty string, so a
click refined with an empty description is also adopted; only a non-click
reply (or one whose description parses to a non-string value) is logged into
the action history and retried up to the cap. -/
theorem C7_refine_adoption (a0 : Dict) (r : String) (rest : List (Option String))
    (hclick : isStrEq (dget a0 "action_type") "click" = true) :
    ((isRefineAdopted (parse_action_response r) = true →
        refinePhase a0 (some r :: rest) = (parse_action_response r, [])) ∧
      (isRefineAdopted (parse_action_response r) = false →
        refinePhase a0 (some r :: rest) =
          refineGo 1 a0 [parse_action_response r] rest) ∧
      (isRefineAdopted (parse_action_response r) =
        (isStrEq (dget (parse_action_response r) "action_type") "click" &&
          isJsonStr (dget (parse_action_response r) "description"))) ∧
      (∀ replies, refinePhase a0 replies = refinePhase a0 (replies.take 2))) := by
  refine ⟨?_, ?_, rfl, ?_⟩
  · intro had
    unfold refinePhase
    rw [if_pos hclick]
    simp only [refineGo]
    rw [if_pos had]
  · intro had
    unfold refinePhase
    rw [if_pos hclick]
    simp only [refineGo]
    rw [if_neg (by rw [had]; exact Bool.false_ne_true)]
    simp only [List.nil_append]
  · intro replies
    unfold refinePhase
    rw [if_pos hclick, if_pos hclick]
    exact refineGo_take 2 a0 [] replies

/-- C7 counterexample: a refined reply that parses to a click with an EMPTY
description is adopted, contradicting the claim that such a reply is not
adopted and is logged for retry. -/
theorem C7_counterexample :
    refinePhase
        (parse_action_response "\x7b\"action_type\": \"click\", \"description\": \"按钮\"\x7d")
        [some "\x7b\"action_type\": \"click\"\x7d"] =
      (parse_action_response "\x7b\"action_type\": \"click\"\x7d", []) ∧
    dget (parse_action_response "\x7b\"action_type\": \"click\"\x7d") "description" =
      some (Json.str "") := ⟨rfl, rfl⟩

/-- Witness for C7 at a concrete non-adopted refinement reply. -/
theorem C7_refine_adoption_witness :
    refinePhase
        (parse_action_response "\x7b\"action_type\": \"click\", \"description\": \"按钮\"\x7d")
        [some "\x7b\"action_type\": \"wait\"\x7d"] =
      refineGo 1
        (parse_action_response "\x7b\"action_type\": \"click\", \"description\": \"按钮\"\x7d")
        [parse_action_response "\x7b\"action_type\": \"wait\"\x7d"] [] :=
  (C7_refine_adoption
      (parse_action_response "\x7b\"action_type\": \"click\", \"description\": \"按钮\"\x7d")
      "\x7b\"action_type\": \"wait\"\x7d" [] rfl).2.1 rfl

/-! ## Claim C8 -/

/-- C8 (amended): the repair chain recovers the intended object only when
the trailing comma is separated from the closing brace by exactly a newline
or exactly one space — the two literal repair patterns `,\n\x7d` and
`, \x7d`; a trailing comma immediately adjacent to the closing brace is not
repaired and the reply falls through to the keyword fallback (which here
infers `input`, since `action_type` contains the keyword `type`). -/
theorem C8_trailing_comma_repair :
    parse_action_response "\x7b\"action_type\": \"back\",\n\x7d" =
      parse_action_response "\x7b\"action_type\": \"back\"\x7d" ∧
    parse_action_response "\x7b\"action_type\": \"back\", \x7d" =
      parse_action_response "\x7b\"action_type\": \"back\"\x7d" ∧
    parse_action_response "\x7b\"action_type\": \"click\", \"description\": \"登录\",\n\x7d" =
      parse_action_response "\x7b\"action_type\": \"click\", \"description\": \"登录\"\x7d" ∧
    dget (parse_action_response "\x7b\"action_type\": \"back\",\x7d") "action_type" =
      some (Json.str "input") := ⟨rfl, rfl, rfl, rfl⟩

/-- C8 counterexample: a trailing comma immediately before the closing brace
is not repaired — the interpreted record differs (as a Python dict) from
that of the same text without the comma. -/
theorem C8_counterexample :
    dequiv (parse_action_response "\x7b\"action_type\": \"back\",\x7d")
      (parse_action_response "\x7b\"action_type\": \"back\"\x7d") = false := rfl

/-! ## Claim C9 -/

theorem replGo_no_occur (pat rep : List Char) (c : Char) (hcp : c ∈ pat) :
    ∀ (fuel : Nat) (s : List Char), c ∉ s → replGo pat rep fuel s = s := by
  intro fuel
  induction fuel with
  | zero => intro s _; rfl
  | succ n ih =>
    intro s hs
    cases s with
    | nil => rfl
    | cons a t =>
      simp only [replGo]
      rw [if_neg ?_]
      · rw [ih t (fun hm => hs (List.mem_cons_of_mem a hm))]
      · rintro ⟨-, hpre⟩
        exact hs ((List.isPrefixOf_iff_prefix.mp hpre).subset hcp)

theorem pyReplace_no_occur (pat rep s : List Char) (c : Char) (hcp : c ∈ pat)
    (hcs : c ∉ s) : pyReplaceList pat rep s = s :=
  replGo_no_occur pat rep c hcp s.length s hcs

theorem dropWhile_eq_self_parts (L : List Char) (ht : pyStripList L = L) :
    L.dropWhile isPyWs = L ∧ L.reverse.dropWhile isPyWs = L.reverse := by
  have hsuf1 : L.dropWhile isPyWs <:+ L := List.dropWhile_suffix isPyWs
  have hlen1 : (L.dropWhile isPyWs).length ≤ L.length := hsuf1.length_le
  have hsuf2 : (L.dropWhile isPyWs).reverse.dropWhile isPyWs <:+
      (L.dropWhile isPyWs).reverse := List.dropWhile_suffix isPyWs
  have hlen2 := hsuf2.length_le
  rw [List.length_reverse] at hlen2
  have hEq : (pyStripList L).length = L.length := by rw [ht]
  have hlen3 : (pyStripList L).length =
      ((L.dropWhile isPyWs).reverse.dropWhile isPyWs).length := by
    simp [pyStripList]
  have h1 : (L.dropWhile isPyWs).length = L.length := by omega
  have hD : L.dropWhile isPyWs = L := hsuf1.eq_of_length h1
  refine ⟨hD, ?_⟩
  have h2 : ((L.dropWhile isPyWs).reverse.dropWhile isPyWs).length =
      (L.dropWhile isPyWs).reverse.length := by
    rw [List.length_reverse]
    omega
  have hE := hsuf2.eq_of_length h2
  rw [hD] at hE
  exact hE

theorem head_not_ws_of_dropWhile_eq (c : Char) (t : List Char)
    (h : List.dropWhile isPyWs (c :: t) = c :: t) : isPyWs c = false := by
  cases hc : isPyWs c with
  | false => rfl
  | true =>
    exfalso
    rw [List.dropWhile_cons, if_pos hc] at h
    have hlen : (List.dropWhile isPyWs t).length ≤ t.length :=
      (List.dropWhile_suffix isPyWs).length_le
    have : (List.dropWhile isPyWs t).length = t.length + 1 := by rw [h]; rfl
    omega

theorem preprocessList_id_of_clean (L : List Char) (hb : btick ∉ L)
    (ht : pyStripList L = L) : preprocessList L = L := by
  have hsw : pyStartsWith L "```".data = false := by
    cases L with
    | nil => rfl
    | cons a t =>
      have ha : btick ≠ a := fun h => hb (h ▸ List.mem_cons_self a t)
      show List.isPrefixOf _ _ = false
      rw [show ("```".data : List Char) = [btick, btick, btick] from rfl]
      simp only [List.isPrefixOf, Bool.and_eq_false_iff]
      exact Or.inl (by simpa using ha)
  unfold preprocessList
  dsimp only
  rw [ht, hsw]
  rw [if_neg Bool.false_ne_true]
  rw [pyReplace_no_occur "```json".data [] L btick (by decide) hb,
    pyReplace_no_occur "```".data [] L btick (by decide) hb, ht]

theorem preprocessList_fence (L : List Char) (hb : btick ∉ L)
    (ht : pyStripList L = L) :
    preprocessList
      (btick :: btick :: btick :: '\n' :: (L ++ ['\n', btick, btick, btick])) = L := by
  cases L with
  | nil => rfl
  | cons c0 t0 =>
    obtain ⟨hD, hR⟩ := dropWhile_eq_self_parts (c0 :: t0) ht
    have hc0 : isPyWs c0 = false := head_not_ws_of_dropWhile_eq c0 t0 hD
    set L := c0 :: t0 with hL
    set W := btick :: btick :: btick :: '\n' :: (L ++ ['\n', btick, btick, btick]) with hW
    have hrev : W.reverse =
        btick :: btick :: btick :: '\n' :: (L.reverse ++ ['\n', btick, btick, btick]) := by
      rw [hW]
      simp [List.reverse_cons, List.reverse_append, List.append_assoc]
    have hstrip : pyStripList W = W := by
      unfold pyStripList
      rw [show W.dropWhile isPyWs = W by
          rw [hW, List.dropWhile_cons, if_neg (by decide)]]
      rw [hrev, List.dropWhile_cons, if_neg (by decide), ← hrev, List.reverse_reverse]
    have hchars : pyStripCharsList [btick] W = '\n' :: (L ++ ['\n']) := by
      unfold pyStripCharsList
      rw [hW]
      rw [List.dropWhile_cons, if_pos (by decide), List.dropWhile_cons, if_pos (by decide),
        List.dropWhile_cons, if_pos (by decide), List.dropWhile_cons, if_neg (by decide)]
      have hrev2 : ('\n' :: (L ++ ['\n', btick, btick, btick])).reverse =
          btick :: btick :: btick :: '\n' :: (L.reverse ++ ['\n']) := by
        simp [List.reverse_cons, List.reverse_append, List.append_assoc]
      rw [hrev2]
      rw [List.dropWhile_cons, if_pos (by decide), List.dropWhile_cons, if_pos (by decide),
        List.dropWhile_cons, if_pos (by decide), List.dropWhile_cons, if_neg (by decide)]
      simp [List.reverse_cons, List.reverse_append]
    have hmem : btick ∉ '\n' :: (L ++ ['\n']) := by
      intro hm
      rcases List.mem_cons.mp hm with h | h
      · exact absurd h (by decide)
      · rcases List.mem_append.mp h with h | h
        · exact hb h
        · exact absurd (List.mem_singleton.mp h) (by decide)
    have hfinal : pyStripList ('\n' :: (L ++ ['\n'])) = L := by
      unfold pyStripList
      rw [List.dropWhile_cons, if_pos (by decide)]
      rw [hL, List.cons_append, List.dropWhile_cons, if_neg (by rw [hc0]; exact Bool.false_ne_true),
        ← List.cons_append, ← hL]
      rw [show (L ++ ['\n']).reverse = '\n' :: L.reverse by simp]
      rw [List.dropWhile_cons, if_pos (by decide), hR, List.reverse_reverse]
    unfold preprocessList
    dsimp only
    rw [hstrip]
    rw [show pyStartsWith W "```".data = true from by rw [hW]; rfl]
    rw [if_pos rfl]
    rw [hchars]
    rw [pyReplace_no_occur "```json".data [] _ btick (by decide) hmem,
      pyReplace_no_occur "```".data [] _ btick (by decide) hmem]
    exact hfinal

/-- C9 (amended): wrapping a reply in an untagged triple-backtick fence
never changes the interpreted record, for every backtick-free,
whitespace-trimmed reply; a fence tagged `json` can change the result,
because the tag residue survives the preprocessing (only the backticks are
stripped), which disables the direct-parse path and forces bracket-depth
extraction — and that extraction truncates at a `\x7d` inside a string
value. -/
theorem C9_untagged_fence_id (r : String) (hb : btick ∉ r.data)
    (ht : pyStrip r = r) :
    parse_action_response ("```\n" ++ r ++ "\n```") = parse_action_response r := by
  have hdata : ("```\n" ++ r ++ "\n```").data =
      btick :: btick :: btick :: '\n' :: (r.data ++ ['\n', btick, btick, btick]) := by
    rw [show ∀ s t : String, (s ++ t).data = s.data ++ t.data from fun s t => rfl,
      show ∀ s t : String, (s ++ t).data = s.data ++ t.data from fun s t => rfl]
    rw [show ("```\n".data : List Char) = [btick, btick, btick, '\n'] from rfl,
      show ("\n```".data : List Char) = ['\n', btick, btick, btick] from rfl]
    simp
  have htL : pyStripList r.data = r.data := congrArg String.data ht
  unfold parse_action_response
  rw [hdata, preprocessList_fence r.data hb htL, preprocessList_id_of_clean r.data hb htL]

/-- C9 counterexample: with a `json`-tagged fence the claim fails — a reply
whose `description` string contains `\x7d\x7b` parses directly when
unwrapped, but its fenced form falls through to the keyword fallback and
yields a different record. -/
theorem C9_counterexample :
    dequiv
      (parse_action_response "```json\n\x7b\"description\": \"\x7d\x7b\"\x7d\n```")
      (parse_action_response "\x7b\"description\": \"\x7d\x7b\"\x7d") = false := rfl

/-- Witness for C9 at a concrete backtick-free trimmed reply. -/
theorem C9_untagged_fence_id_witness :
    parse_action_response ("```\n" ++ "\x7b\"action_type\": \"back\"\x7d" ++ "\n```") =
      parse_action_response "\x7b\"action_type\": \"back\"\x7d" :=
  C9_untagged_fence_id "\x7b\"action_type\": \"back\"\x7d" (by decide) rfl

end GUIgen
